import Mathlib

/-
Verification of the Fork-Chain & Engagement Aggregation Engine of the
Receipts application backend.

The definitions below are a shallow embedding of the Python source:
  - data model from app/models/db/receipt.py and app/models/db/reaction.py
    (fields that no verified property mentions, such as claim text and
    topic links, are projected away; ids and timestamps are modelled as
    numbers);
  - repository operations from app/db/repositories/receipt.py and
    app/db/repositories/reaction.py (SQL queries become list filters,
    sorts and lookups over an explicit store value; an ORDER BY with the
    keys of the query becomes a stable insertion sort with exactly those
    keys, so ties keep the underlying table order);
  - service operations from app/services/receipt_service.py,
    app/services/reaction_service.py and
    app/services/reconciliation_service.py (exceptions become option or
    unchanged-store results; the store is passed explicitly).

The while-loop of ReceiptRepository.get_chain that walks parent links
upward has no bound in the source; it is embedded as a fuel-indexed
function where a result of none for every fuel value means the loop
never terminates.
-/

namespace ReceiptsApp

/-- Visibility enum from app/models/enums.py (PUBLIC and UNLISTED). -/
inductive Visibility where
  | pub
  | unlisted
deriving DecidableEq, Repr

/-- ReactionType enum from app/models/enums.py. -/
inductive ReactionType where
  | support
  | dispute
  | bookmark
deriving DecidableEq, Repr

/-- Receipt row from app/models/db/receipt.py: id, author, optional parent
link, visibility, the two denormalized counters and the creation time. -/
structure Receipt where
  id : Nat
  author_id : Nat
  parent_receipt_id : Option Nat
  visibility : Visibility
  fork_count : Nat
  reaction_count : Nat
  created_at : Int
deriving DecidableEq, Repr

/-- Reaction row from app/models/db/reaction.py; the unique constraint on
(receipt_id, user_id, type) is a property of reachable stores, not of the
type. -/
structure Reaction where
  receipt_id : Nat
  user_id : Nat
  type : ReactionType
deriving DecidableEq, Repr

/-- EvidenceItem row from app/models/db/receipt.py, reduced to its owning
receipt and order index. -/
structure EvidenceItem where
  receipt_id : Nat
  order_index : Nat
deriving DecidableEq, Repr

/-- The database state: the receipts, reactions and evidence_items tables. -/
structure Store where
  receipts : List Receipt
  reactions : List Reaction
  evidence : List EvidenceItem
deriving DecidableEq, Repr

/-- BaseRepository.get_by_id: the receipt row with the given id, if any. -/
def getById (s : Store) (i : Nat) : Option Receipt :=
  s.receipts.find? (fun r => r.id == i)

/-- One step plus the rest of the root-walk loop of
ReceiptRepository.get_chain: while the current receipt has a parent id,
load the parent; stop at the current receipt when the parent row is
missing; otherwise continue from the parent.  The fuel argument counts
loop iterations still allowed; none means the loop was still running when
the fuel ran out, so a result of none at every fuel is divergence. -/
def rootWalk (s : Store) : Nat → Receipt → Option Receipt
  | 0, _ => none
  | fuel + 1, r =>
    match r.parent_receipt_id with
    | none => some r
    | some pid =>
      match getById s pid with
      | none => some r
      | some p => rootWalk s fuel p

/-- Result of the root part of get_chain: the requested id was absent, the
upward walk did not finish within the given fuel, or the walk stopped at
this root. -/
inductive ChainRootResult where
  | notFound
  | diverged
  | root (r : Receipt)
deriving DecidableEq, Repr

/-- Ordering used by _get_forks_recursive: reaction_count descending, then
created_at ascending. -/
def forkOrder (a b : Receipt) : Prop :=
  b.reaction_count < a.reaction_count ∨
    (a.reaction_count = b.reaction_count ∧ a.created_at ≤ b.created_at)

instance : DecidableRel forkOrder := fun a b =>
  inferInstanceAs (Decidable (b.reaction_count < a.reaction_count ∨
    (a.reaction_count = b.reaction_count ∧ a.created_at ≤ b.created_at)))

/-- ReceiptRepository._get_forks_recursive: at each level fetch the direct
forks of the parent ordered by forkOrder, then append the recursively
collected forks of each, until remaining_depth reaches 0. -/
def getForksRecursive (s : Store) (parentId : Nat) : Nat → List Receipt
  | 0 => []
  | d + 1 =>
    let forks :=
      (s.receipts.filter (fun r => r.parent_receipt_id == some parentId)).insertionSort forkOrder
    forks ++ (forks.map (fun f => getForksRecursive s f.id d)).flatten

/-- ReceiptRepository.get_chain: load the node, walk parent links to the
true root (fuel-indexed, the source loop is unbounded), then collect the
fork tree below the root up to max_depth. -/
def get_chain (s : Store) (fuel : Nat) (i : Nat) (maxDepth : Nat) :
    ChainRootResult × List Receipt :=
  match getById s i with
  | none => (ChainRootResult.notFound, [])
  | some r =>
    match rootWalk s fuel r with
    | none => (ChainRootResult.diverged, [])
    | some root => (ChainRootResult.root root, getForksRecursive s root.id maxDepth)

/-- A two-receipt store whose parent links form a cycle: receipt 1 has
parent 2 and receipt 2 has parent 1. -/
def cycStore : Store :=
  { receipts :=
      [ { id := 1, author_id := 10, parent_receipt_id := some 2,
          visibility := Visibility.pub, fork_count := 0, reaction_count := 0,
          created_at := 0 },
        { id := 2, author_id := 11, parent_receipt_id := some 1,
          visibility := Visibility.pub, fork_count := 0, reaction_count := 0,
          created_at := 0 } ],
    reactions := [], evidence := [] }

theorem cycStore_walk_stuck (fuel : Nat) :
    rootWalk cycStore fuel (cycStore.receipts.get ⟨0, by decide⟩) = none ∧
    rootWalk cycStore fuel (cycStore.receipts.get ⟨1, by decide⟩) = none := by
  induction fuel with
  | zero => exact ⟨rfl, rfl⟩
  | succ n ih =>
    refine ⟨?_, ?_⟩
    · show rootWalk cycStore (n + 1) _ = none
      rw [rootWalk]
      exact ih.2
    · show rootWalk cycStore (n + 1) _ = none
      rw [rootWalk]
      exact ih.1

/-- C1: the claim states the upward root-walk of GetChain executes a
bounded number of hops and terminates even on a cyclic parent chain.  The
source loop has no hop ceiling: on the two-cycle store, for every number
of loop iterations the walk is still running, so get_chain never finishes
for any fuel — the code loops forever instead of stopping. -/
theorem get_chain_diverges_on_cycle (fuel : Nat) (maxDepth : Nat) :
    (get_chain cycStore fuel 1 maxDepth).1 = ChainRootResult.diverged := by
  have h := cycStore_walk_stuck fuel
  have hget : getById cycStore 1 = some (cycStore.receipts.get ⟨0, by decide⟩) := by decide
  unfold get_chain
  rw [hget]
  dsimp only
  rw [h.1]

theorem rootWalk_stops_at_root (s : Store) (fuel : Nat) (r : Receipt)
    (hr : r.parent_receipt_id = none) :
    rootWalk s (fuel + 1) r = some r := by
  rw [rootWalk, hr]

theorem rootWalk_step (s : Store) (fuel : Nat) (r p : Receipt) (pid : Nat)
    (hp : r.parent_receipt_id = some pid) (hload : getById s pid = some p) :
    rootWalk s (fuel + 1) r = rootWalk s fuel p := by
  rw [rootWalk, hp]
  dsimp only
  rw [hload]

/-- C5: for a grandchild f whose parent chain f → c → r ends at a receipt
r with no parent, and whose links all resolve in the store, get_chain
returns r as the root no matter which of the three chain members is
queried (any fuel of at least three hops suffices, matching the loop
running at most three times). -/
theorem get_chain_root_of_grandchild (s : Store) (f c r : Receipt)
    (fuel maxDepth : Nat)
    (hf : getById s f.id = some f)
    (hc : getById s c.id = some c)
    (hr : getById s r.id = some r)
    (hfp : f.parent_receipt_id = some c.id)
    (hcp : c.parent_receipt_id = some r.id)
    (hrp : r.parent_receipt_id = none) :
    (get_chain s (fuel + 3) f.id maxDepth).1 = ChainRootResult.root r ∧
    (get_chain s (fuel + 3) c.id maxDepth).1 = ChainRootResult.root r ∧
    (get_chain s (fuel + 3) r.id maxDepth).1 = ChainRootResult.root r := by
  have hwr : rootWalk s (fuel + 1) r = some r := rootWalk_stops_at_root s fuel r hrp
  have hwc : rootWalk s (fuel + 2) c = some r := by
    rw [rootWalk_step s (fuel + 1) c r r.id hcp hr]
    exact hwr
  have hwf : rootWalk s (fuel + 3) f = some r := by
    rw [rootWalk_step s (fuel + 2) f c c.id hfp hc]
    exact hwc
  have hwr3 : rootWalk s (fuel + 3) r = some r := rootWalk_stops_at_root s (fuel + 2) r hrp
  refine ⟨?_, ?_, ?_⟩
  · unfold get_chain
    rw [hf]
    dsimp only
    rw [hwf]
  · unfold get_chain
    rw [hc]
    dsimp only
    show (match rootWalk s (fuel + 2 + 1) c with
      | none => (ChainRootResult.diverged, [])
      | some root => (ChainRootResult.root root, getForksRecursive s root.id maxDepth)).1 =
        ChainRootResult.root r
    rw [rootWalk_step s (fuel + 2) c r r.id hcp hr, rootWalk_stops_at_root s (fuel + 1) r hrp]
  · unfold get_chain
    rw [hr]
    dsimp only
    rw [hwr3]

/-- Number of reaction rows whose receipt_id is the given id: the COUNT
subquery of reconcile_counts and of update_reaction_count. -/
def reactionRowCount (s : Store) (i : Nat) : Nat :=
  s.reactions.countP (fun rx => rx.receipt_id == i)

/-- Number of receipt rows whose parent_receipt_id is the given id: the
COUNT subquery of the fork pass of reconcile_counts. -/
def forkRowCount (s : Store) (i : Nat) : Nat :=
  s.receipts.countP (fun m => m.parent_receipt_id == some i)

/-- Row counts returned by reconcile_counts. -/
structure ReconcileResult where
  reaction_rows : Nat
  fork_rows : Nat
deriving DecidableEq, Repr

/-- reconcile_counts from app/services/reconciliation_service.py: one
unconditional UPDATE sets every reaction_count from the reaction table,
then a second unconditional UPDATE sets every fork_count from the
(already updated) receipts table; each reported row count is the number
of rows the corresponding UPDATE touched, which is every receipt row. -/
def reconcile_counts (s : Store) : Store × ReconcileResult :=
  let rs1 := s.receipts.map (fun r => { r with reaction_count := reactionRowCount s r.id })
  let s1 : Store := { s with receipts := rs1 }
  let rs2 := rs1.map (fun r => { r with fork_count := forkRowCount s1 r.id })
  ({ s1 with receipts := rs2 }, { reaction_rows := rs1.length, fork_rows := rs2.length })

theorem map_eq_self_of_mem {α : Type} (f : α → α) (l : List α)
    (h : ∀ x ∈ l, f x = x) : l.map f = l := by
  induction l with
  | nil => rfl
  | cons a l ih =>
    rw [List.map_cons, h a (List.mem_cons_self a l),
      ih (fun x hx => h x (List.mem_cons_of_mem a hx))]

theorem store_receipts_ext (s t : Store) (h1 : s.receipts = t.receipts)
    (h2 : s.reactions = t.reactions) (h3 : s.evidence = t.evidence) : s = t := by
  cases s; cases t; simp_all

theorem reconcile_receipts (s : Store) :
    (reconcile_counts s).1.receipts =
      s.receipts.map (fun r =>
        { r with reaction_count := reactionRowCount s r.id,
                 fork_count := forkRowCount s r.id }) := by
  unfold reconcile_counts
  dsimp only
  rw [List.map_map]
  apply List.map_congr_left
  intro m _
  show { m with reaction_count := reactionRowCount s m.id,
                fork_count := forkRowCount
                  { s with receipts :=
                      s.receipts.map (fun r =>
                        { r with reaction_count := reactionRowCount s r.id }) } m.id } =
       { m with reaction_count := reactionRowCount s m.id,
                fork_count := forkRowCount s m.id }
  have hfk : forkRowCount
      { s with receipts :=
          s.receipts.map (fun r => { r with reaction_count := reactionRowCount s r.id }) } m.id
      = forkRowCount s m.id := by
    unfold forkRowCount
    dsimp only
    rw [List.countP_map]
    rfl
  rw [hfk]

theorem reactionRowCount_reconcile (s : Store) (i : Nat) :
    reactionRowCount (reconcile_counts s).1 i = reactionRowCount s i := rfl

theorem forkRowCount_reconcile (s : Store) (i : Nat) :
    forkRowCount (reconcile_counts s).1 i = forkRowCount s i := by
  unfold forkRowCount
  rw [show (reconcile_counts s).1.receipts = _ from reconcile_receipts s]
  rw [List.countP_map]
  rfl

theorem reconcile_invariant_aux (s : Store) :
    ∀ r ∈ (reconcile_counts s).1.receipts,
      r.fork_count = forkRowCount (reconcile_counts s).1 r.id ∧
      r.reaction_count = reactionRowCount (reconcile_counts s).1 r.id := by
  intro r hr
  rw [reconcile_receipts] at hr
  obtain ⟨m, _, rfl⟩ := List.mem_map.1 hr
  rw [forkRowCount_reconcile, reactionRowCount_reconcile]
  exact ⟨rfl, rfl⟩

theorem reconcile_idempotent_aux (s : Store) :
    (reconcile_counts (reconcile_counts s).1).1 = (reconcile_counts s).1 := by
  apply store_receipts_ext
  · rw [reconcile_receipts]
    apply map_eq_self_of_mem
    intro r hr
    have h := reconcile_invariant_aux s r hr
    rw [← h.1, ← h.2]
  · rfl
  · rfl

/-- C2: immediately after reconcile_counts, every receipt has fork_count
equal to the number of receipts referencing it as parent and
reaction_count equal to the number of its reaction rows; and running
reconcile_counts again from the resulting store changes nothing. -/
theorem reconcile_counts_invariant_and_idempotent (s : Store) :
    (∀ r ∈ (reconcile_counts s).1.receipts,
        r.fork_count = forkRowCount (reconcile_counts s).1 r.id ∧
        r.reaction_count = reactionRowCount (reconcile_counts s).1 r.id) ∧
    (reconcile_counts (reconcile_counts s).1).1 = (reconcile_counts s).1 :=
  ⟨reconcile_invariant_aux s, reconcile_idempotent_aux s⟩

/-- A store with a single receipt whose counters already match ground
truth (no forks, no reactions). -/
def consistentStore : Store :=
  { receipts :=
      [ { id := 1, author_id := 10, parent_receipt_id := none,
          visibility := Visibility.pub, fork_count := 0, reaction_count := 0,
          created_at := 0 } ],
    reactions := [], evidence := [] }

/-- C6 counterexample: on a store where every counter already equals
ground truth, the claim says both reported row counts are zero; the code
reports the rowcount of its unconditional UPDATE statements, which is 1
(every receipt row), not 0. -/
theorem reconcile_counts_rowcount_counterexample :
    (∀ r ∈ consistentStore.receipts,
        r.fork_count = forkRowCount consistentStore r.id ∧
        r.reaction_count = reactionRowCount consistentStore r.id) ∧
    (reconcile_counts consistentStore).2.reaction_rows = 1 ∧
    (reconcile_counts consistentStore).2.fork_rows = 1 ∧
    ¬ ((reconcile_counts consistentStore).2.reaction_rows = 0 ∧
       (reconcile_counts consistentStore).2.fork_rows = 0) := by
  decide

/-- C6 amended: reconcile_counts reports, for each counter, the number of
receipt rows touched by the corresponding UPDATE pass — the total number
of receipt rows — regardless of how many stored values differed from
ground truth. -/
theorem reconcile_counts_reports_all_rows (s : Store) :
    (reconcile_counts s).2.reaction_rows = s.receipts.length ∧
    (reconcile_counts s).2.fork_rows = s.receipts.length := by
  unfold reconcile_counts
  dsimp only
  simp [List.length_map]

theorem find?_map_pres {α : Type} (g : α → α) (p : α → Bool)
    (hp : ∀ r, p (g r) = p r) (l : List α) :
    (l.map g).find? p = (l.find? p).map g := by
  induction l with
  | nil => rfl
  | cons a l ih =>
    simp only [List.map_cons, List.find?]
    rw [hp a]
    cases h : p a
    · exact ih
    · rfl

theorem find?_append_some {α : Type} {p : α → Bool} {l1 l2 : List α} {a : α}
    (h : l1.find? p = some a) : (l1 ++ l2).find? p = some a := by
  induction l1 with
  | nil => simp [List.find?] at h
  | cons b l1 ih =>
    simp only [List.cons_append, List.find?] at h ⊢
    cases hb : p b
    · rw [hb] at h
      exact ih h
    · rw [hb] at h
      exact h

theorem find?_append_none {α : Type} {p : α → Bool} {l1 l2 : List α}
    (h : l1.find? p = none) : (l1 ++ l2).find? p = l2.find? p := by
  induction l1 with
  | nil => rfl
  | cons b l1 ih =>
    simp only [List.cons_append, List.find?] at h ⊢
    cases hb : p b
    · rw [hb] at h
      exact ih h
    · rw [hb] at h
      exact absurd h (by simp)

theorem find?_none_iff_countP_zero {α : Type} (p : α → Bool) (l : List α) :
    l.find? p = none ↔ l.countP p = 0 := by
  rw [List.find?_eq_none, List.countP_eq_zero]

/-- Row update applied by increment_fork_count to each receipt: add one
to fork_count on the row with the given id. -/
def incFork (i : Nat) (r : Receipt) : Receipt :=
  if r.id == i then { r with fork_count := r.fork_count + 1 } else r

/-- ReceiptRepository.increment_fork_count: load the receipt by id and, if
present, add one to its fork_count (a no-op when the id is absent, since
no row then changes). -/
def increment_fork_count (s : Store) (i : Nat) : Store :=
  { s with receipts := s.receipts.map (incFork i) }

/-- Row update applied by update_reaction_count: overwrite reaction_count
with the given value on the row with the given id. -/
def setReactionCount (i c : Nat) (r : Receipt) : Receipt :=
  if r.id == i then { r with reaction_count := c } else r

/-- ReceiptRepository.update_reaction_count: count the reaction rows of
the receipt from the reactions table and, if the receipt exists,
overwrite its reaction_count with that count. -/
def update_reaction_count (s : Store) (i : Nat) : Store :=
  { s with receipts := s.receipts.map (setReactionCount i (reactionRowCount s i)) }

/-- The fork row inserted by ReceiptService.fork_receipt: parent link set
to the forked receipt, counters at their column defaults. -/
def mkFork (authorId parentId newId : Nat) (createdAt : Int) : Receipt :=
  { id := newId, author_id := authorId, parent_receipt_id := some parentId,
    visibility := Visibility.pub, fork_count := 0, reaction_count := 0,
    created_at := createdAt }

/-- Evidence rows inserted for a fork, one per item of the fork data, with
consecutive order indices. -/
def forkEvidence (newId nEvidence : Nat) : List EvidenceItem :=
  (List.range nEvidence).map (fun k => { receipt_id := newId, order_index := k })

/-- ReceiptService.fork_receipt: load the parent (the source raises
ReceiptNotFoundError before any write when it is absent, modelled as the
unchanged store and no receipt), insert the fork row with
parent_receipt_id pointing at the parent, insert its evidence rows,
increment the parent fork_count, and return the re-fetched fork. -/
def fork_receipt (s : Store) (authorId parentId newId nEvidence : Nat)
    (createdAt : Int) : Store × Option Receipt :=
  match getById s parentId with
  | none => (s, none)
  | some _ =>
    let f := mkFork authorId parentId newId createdAt
    let s1 : Store := { s with receipts := s.receipts ++ [f] }
    let s2 : Store := { s1 with evidence := s1.evidence ++ forkEvidence newId nEvidence }
    let s3 := increment_fork_count s2 parentId
    (s3, getById s3 newId)

theorem incFork_id (i : Nat) (r : Receipt) : (incFork i r).id = r.id := by
  unfold incFork
  cases hb : r.id == i <;> simp [hb]

theorem incFork_of_ne (i : Nat) (r : Receipt) (h : (r.id == i) = false) :
    incFork i r = r := by
  unfold incFork
  rw [h]
  rfl

theorem incFork_of_eq (i : Nat) (r : Receipt) (h : (r.id == i) = true) :
    incFork i r = { r with fork_count := r.fork_count + 1 } := by
  unfold incFork
  rw [h]
  rfl

theorem setReactionCount_id (i c : Nat) (r : Receipt) :
    (setReactionCount i c r).id = r.id := by
  unfold setReactionCount
  cases hb : r.id == i <;> simp [hb]

theorem setReactionCount_fork (i c : Nat) (r : Receipt) :
    (setReactionCount i c r).fork_count = r.fork_count := by
  unfold setReactionCount
  cases hb : r.id == i <;> simp [hb]

theorem setReactionCount_of_eq (i c : Nat) (r : Receipt) (h : (r.id == i) = true) :
    setReactionCount i c r = { r with reaction_count := c } := by
  unfold setReactionCount
  rw [h]
  rfl

theorem getById_map_store (s : Store) (g : Receipt → Receipt)
    (hg : ∀ r, (g r).id = r.id) (i : Nat) :
    getById { s with receipts := s.receipts.map g } i = (getById s i).map g := by
  unfold getById
  dsimp only
  exact find?_map_pres g (fun r => r.id == i)
    (fun r => by show ((g r).id == i) = (r.id == i); rw [hg r]) s.receipts

theorem getById_increment_fork (s : Store) (pid i : Nat) :
    getById (increment_fork_count s pid) i = (getById s i).map (incFork pid) :=
  getById_map_store s (incFork pid) (incFork_id pid) i

theorem getById_update_count (s : Store) (i j : Nat) :
    getById (update_reaction_count s i) j =
      (getById s j).map (setReactionCount i (reactionRowCount s i)) :=
  getById_map_store s (setReactionCount i (reactionRowCount s i))
    (setReactionCount_id i (reactionRowCount s i)) j

theorem getById_append_of_some {s : Store} {j : Nat} {x : Receipt}
    (h : getById s j = some x) (f : Receipt) (rx : List Reaction)
    (ev : List EvidenceItem) :
    getById { receipts := s.receipts ++ [f], reactions := rx, evidence := ev } j
      = some x := by
  unfold getById at h ⊢
  exact find?_append_some h

theorem getById_append_of_none {s : Store} {j : Nat}
    (h : getById s j = none) (f : Receipt) (rx : List Reaction)
    (ev : List EvidenceItem) :
    getById { receipts := s.receipts ++ [f], reactions := rx, evidence := ev } j
      = if f.id == j then some f else none := by
  unfold getById at h ⊢
  rw [find?_append_none h]
  cases hb : f.id == j <;> simp [hb, List.find?]

theorem fork_receipt_eq (s : Store) (authorId parentId newId nEvidence : Nat)
    (t : Int) (p : Receipt) (hp : getById s parentId = some p) :
    fork_receipt s authorId parentId newId nEvidence t =
      (increment_fork_count
        { receipts := s.receipts ++ [mkFork authorId parentId newId t],
          reactions := s.reactions,
          evidence := s.evidence ++ forkEvidence newId nEvidence } parentId,
       getById (increment_fork_count
        { receipts := s.receipts ++ [mkFork authorId parentId newId t],
          reactions := s.reactions,
          evidence := s.evidence ++ forkEvidence newId nEvidence } parentId) newId) := by
  unfold fork_receipt
  rw [hp]

/-- C3: forking an existing receipt produces a fork whose
parent_receipt_id is the parent id, adds exactly one to the parent
fork_count, and changes no other receipt at all (in particular no other
fork_count); newId is the freshly generated primary key of the inserted
row, so it differs from every existing id. -/
theorem fork_receipt_linkage (s : Store) (p : Receipt)
    (authorId parentId newId nEvidence : Nat) (t : Int)
    (hp : getById s parentId = some p)
    (hfresh : ∀ r ∈ s.receipts, r.id ≠ newId) :
    (∃ f, (fork_receipt s authorId parentId newId nEvidence t).2 = some f ∧
        f.parent_receipt_id = some parentId) ∧
    (getById (fork_receipt s authorId parentId newId nEvidence t).1 parentId).map
        Receipt.fork_count = some (p.fork_count + 1) ∧
    (∀ i, i ≠ parentId → i ≠ newId →
        getById (fork_receipt s authorId parentId newId nEvidence t).1 i
          = getById s i) := by
  have hfind : s.receipts.find? (fun r => r.id == parentId) = some p := hp
  have hpidb : (p.id == parentId) = true := by
    have h2 := List.find?_some hfind
    simpa using h2
  have hpid : p.id = parentId := by simpa using hpidb
  have hpmem : p ∈ s.receipts := List.mem_of_find?_eq_some hfind
  have hpne : newId ≠ parentId := fun he => hfresh p hpmem (hpid.trans he.symm)
  have hnew_none : getById s newId = none := by
    rw [getById, List.find?_eq_none]
    intro x hx
    simpa using hfresh x hx
  rw [fork_receipt_eq s authorId parentId newId nEvidence t p hp]
  dsimp only
  rw [getById_increment_fork, getById_increment_fork]
  rw [getById_append_of_some hp, getById_append_of_none hnew_none]
  have hfid : ((mkFork authorId parentId newId t).id == newId) = true := by
    simp [mkFork]
  rw [hfid]
  refine ⟨⟨mkFork authorId parentId newId t, ?_, rfl⟩, ?_, ?_⟩
  · show some (incFork parentId (mkFork authorId parentId newId t)) = _
    rw [incFork_of_ne]
    simp [mkFork, hpne]
  · show some (Receipt.fork_count (incFork parentId p)) = some (p.fork_count + 1)
    rw [incFork_of_eq parentId p hpidb]
  · intro i hi1 hi2
    rw [getById_increment_fork]
    cases h : getById s i with
    | some x =>
      rw [getById_append_of_some h]
      have hx : x.id = i := by
        have h2 : List.find? (fun r => r.id == i) s.receipts = some x := h
        have h3 := List.find?_some h2
        simpa using h3
      have hxne : (x.id == parentId) = false := by
        simp [hx, hi1]
      show some (incFork parentId x) = some x
      rw [incFork_of_ne parentId x hxne]
    | none =>
      rw [getById_append_of_none h]
      have : ((mkFork authorId parentId newId t).id == i) = false := by
        simp [mkFork]
        exact fun he => hi2 he.symm
      rw [this]
      rfl

/-- C7: creating a fork whose parent id matches no receipt fails before
any write: the store is returned exactly as it was (no node inserted, no
evidence created, no counter changed) and no receipt is produced. -/
theorem fork_receipt_parent_not_found (s : Store)
    (authorId parentId newId nEvidence : Nat) (t : Int)
    (h : ∀ r ∈ s.receipts, r.id ≠ parentId) :
    fork_receipt s authorId parentId newId nEvidence t = (s, none) := by
  have hnone : getById s parentId = none := by
    rw [getById, List.find?_eq_none]
    intro x hx
    simpa using h x hx
  unfold fork_receipt
  rw [hnone]

/-- Filter of ReactionRepository.get_user_reaction with a reaction type:
the row matching receipt, user and type. -/
def reactionKey (rid uid : Nat) (k : ReactionType) (rx : Reaction) : Bool :=
  rx.receipt_id == rid && rx.user_id == uid && rx.type == k

/-- ReactionRepository.get_user_reaction (with a reaction_type argument,
as both services call it): the reaction row of the (receipt, user, type)
triple, if present. -/
def get_user_reaction (s : Store) (rid uid : Nat) (k : ReactionType) :
    Option Reaction :=
  s.reactions.find? (reactionKey rid uid k)

/-- Number of reaction rows for the (receipt, user, type) triple; the
unique constraint uq_reaction_user_receipt_type makes this at most 1 in
every reachable store. -/
def countTriple (s : Store) (rid uid : Nat) (k : ReactionType) : Nat :=
  s.reactions.countP (reactionKey rid uid k)

/-- The reaction row inserted by ReactionService.add_reaction. -/
def mkReaction (rid uid : Nat) (k : ReactionType) : Reaction :=
  { receipt_id := rid, user_id := uid, type := k }

/-- ReactionService.add_reaction: verify the receipt exists (the source
raises ReceiptNotFoundError, modelled as an unchanged store and no
reaction), return the existing row of the triple when there is one,
otherwise insert the row and recompute the denormalized reaction_count
of the receipt from the reactions table. -/
def add_reaction (s : Store) (uid rid : Nat) (k : ReactionType) :
    Store × Option Reaction :=
  match getById s rid with
  | none => (s, none)
  | some _ =>
    match get_user_reaction s rid uid k with
    | some existing => (s, some existing)
    | none =>
      let rx := mkReaction rid uid k
      let s1 : Store := { s with reactions := s.reactions ++ [rx] }
      let s2 := update_reaction_count s1 rid
      (s2, some rx)

/-- ReactionService.remove_reaction: if the triple has a row, delete it
and recompute the denormalized reaction_count of the receipt from the
reactions table; otherwise do nothing. -/
def remove_reaction (s : Store) (uid rid : Nat) (k : ReactionType) : Store :=
  match get_user_reaction s rid uid k with
  | none => s
  | some _ =>
    let s1 : Store := { s with reactions := s.reactions.eraseP (reactionKey rid uid k) }
    update_reaction_count s1 rid

/-- C4: adding the same (node, user, kind) reaction twice from any store
satisfying the uniqueness constraint leaves exactly one row for the
triple; the second call returns an existing reaction rather than failing
and changes nothing. -/
theorem add_reaction_idempotent (s : Store) (p0 : Receipt) (u n : Nat)
    (k : ReactionType)
    (hn : getById s n = some p0)
    (huniq : countTriple s n u k ≤ 1) :
    countTriple (add_reaction s u n k).1 n u k = 1 ∧
    (add_reaction (add_reaction s u n k).1 u n k).1 = (add_reaction s u n k).1 ∧
    (add_reaction (add_reaction s u n k).1 u n k).2.isSome = true := by
  by_cases hc : countTriple s n u k = 0
  · -- no row yet: the first call inserts, the second finds the row
    have hgur : get_user_reaction s n u k = none := by
      show s.reactions.find? (reactionKey n u k) = none
      exact (find?_none_iff_countP_zero _ _).mpr hc
    have heq1 : add_reaction s u n k =
        (update_reaction_count
          { s with reactions :=
              s.reactions ++ [mkReaction n u k] } n,
         some (mkReaction n u k)) := by
      unfold add_reaction
      rw [hn]
      dsimp only
      rw [hgur]
    rw [heq1]
    dsimp only
    have hkey : reactionKey n u k (mkReaction n u k) = true := by
      simp [reactionKey, mkReaction]
    have hcount1 : countTriple (update_reaction_count
        { s with reactions :=
            s.reactions ++ [mkReaction n u k] } n) n u k = 1 := by
      show (s.reactions ++ [mkReaction n u k]).countP
        (reactionKey n u k) = 1
      rw [List.countP_append]
      have hc0 : s.reactions.countP (reactionKey n u k) = 0 := hc
      rw [hc0, List.countP_cons_of_pos _ _ hkey]
      rfl
    have hget2 : getById (update_reaction_count
        { s with reactions :=
            s.reactions ++ [mkReaction n u k] } n) n
        = some (setReactionCount n
            (reactionRowCount
              { s with reactions :=
                  s.reactions ++ [mkReaction n u k] } n) p0) := by
      rw [getById_update_count]
      have hn1 : getById { s with reactions :=
          s.reactions ++ [mkReaction n u k] } n = some p0 := hn
      rw [hn1]
      rfl
    have hgur2 : get_user_reaction (update_reaction_count
        { s with reactions :=
            s.reactions ++ [mkReaction n u k] } n) n u k
        = some (mkReaction n u k) := by
      show (s.reactions ++ [mkReaction n u k]).find?
        (reactionKey n u k) = _
      rw [find?_append_none hgur]
      simp [List.find?, hkey]
    have heq2 : add_reaction (update_reaction_count
        { s with reactions :=
            s.reactions ++ [mkReaction n u k] } n) u n k
        = (update_reaction_count
            { s with reactions :=
                s.reactions ++ [mkReaction n u k] } n,
           some (mkReaction n u k)) := by
      unfold add_reaction
      rw [hget2]
      dsimp only
      rw [hgur2]
    rw [heq2]
    exact ⟨hcount1, rfl, rfl⟩
  · -- a row already exists: both calls return it and change nothing
    cases hf : s.reactions.find? (reactionKey n u k) with
    | none =>
      exact absurd ((find?_none_iff_countP_zero _ _).mp hf) hc
    | some ex =>
      have hgur : get_user_reaction s n u k = some ex := hf
      have heq1 : add_reaction s u n k = (s, some ex) := by
        unfold add_reaction
        rw [hn]
        dsimp only
        rw [hgur]
      rw [heq1]
      dsimp only
      rw [heq1]
      have hone : countTriple s n u k = 1 := by omega
      exact ⟨hone, rfl, rfl⟩

/-- A store whose single receipt has a drifted reaction_count of 5 while
exactly one reaction row exists, and that row matches the add request. -/
def driftStore : Store :=
  { receipts :=
      [ { id := 1, author_id := 10, parent_receipt_id := none,
          visibility := Visibility.pub, fork_count := 0, reaction_count := 5,
          created_at := 0 } ],
    reactions := [ { receipt_id := 1, user_id := 7, type := ReactionType.support } ],
    evidence := [] }

/-- C10 counterexample: AddReaction on an existing node succeeds (the
duplicate request returns the existing reaction, an idempotent success in
the spec taxonomy), yet the stored reaction_count stays at the drifted 5
while only one reaction row exists: the early-return path never
recomputes the counter, so this successful call does not repair drift. -/
theorem add_reaction_noop_keeps_drift :
    (add_reaction driftStore 7 1 ReactionType.support).2.isSome = true ∧
    reactionRowCount (add_reaction driftStore 7 1 ReactionType.support).1 1 = 1 ∧
    (getById (add_reaction driftStore 7 1 ReactionType.support).1 1).map
        Receipt.reaction_count = some 5 := by
  decide

theorem update_count_spec (t : Store) (q : Receipt) (n : Nat)
    (hq : getById t n = some q) :
    (getById (update_reaction_count t n) n).map Receipt.reaction_count
      = some (reactionRowCount t n) ∧
    (∀ i, (getById (update_reaction_count t n) i).map Receipt.fork_count
      = (getById t i).map Receipt.fork_count) := by
  constructor
  · rw [getById_update_count, hq]
    have hqid : (q.id == n) = true := by
      have h2 := List.find?_some
        (show List.find? (fun r => r.id == n) t.receipts = some q from hq)
      simpa using h2
    show some ((setReactionCount n (reactionRowCount t n) q).reaction_count)
      = some (reactionRowCount t n)
    rw [setReactionCount_of_eq _ _ _ hqid]
  · intro i
    rw [getById_update_count]
    cases h : getById t i with
    | none => rfl
    | some x =>
      show some ((setReactionCount n (reactionRowCount t n) x).fork_count)
        = some x.fork_count
      rw [setReactionCount_fork]

/-- C10 amended: a reaction operation that actually mutates the ledger —
an add that inserts a row, or a remove that deletes one — recomputes the
reaction_count of the node from the reaction rows (repairing any prior
drift) and changes no fork_count; the no-op paths (duplicate add, absent
remove) return the store untouched, drift included. -/
theorem reaction_ops_recompute_counter (s : Store) (p0 : Receipt) (u n : Nat)
    (k : ReactionType) (hn : getById s n = some p0) :
    (countTriple s n u k = 0 →
      ((getById (add_reaction s u n k).1 n).map Receipt.reaction_count
          = some (reactionRowCount (add_reaction s u n k).1 n) ∧
       ∀ i, (getById (add_reaction s u n k).1 i).map Receipt.fork_count
          = (getById s i).map Receipt.fork_count)) ∧
    (countTriple s n u k ≠ 0 →
      ((getById (remove_reaction s u n k) n).map Receipt.reaction_count
          = some (reactionRowCount (remove_reaction s u n k) n) ∧
       ∀ i, (getById (remove_reaction s u n k) i).map Receipt.fork_count
          = (getById s i).map Receipt.fork_count)) ∧
    (countTriple s n u k ≠ 0 → (add_reaction s u n k).1 = s) ∧
    (countTriple s n u k = 0 → remove_reaction s u n k = s) := by
  refine ⟨?_, ?_, ?_, ?_⟩
  · intro hc
    have hgur : get_user_reaction s n u k = none := by
      show s.reactions.find? (reactionKey n u k) = none
      exact (find?_none_iff_countP_zero _ _).mpr hc
    have heq1 : add_reaction s u n k =
        (update_reaction_count
          { s with reactions := s.reactions ++ [mkReaction n u k] } n,
         some (mkReaction n u k)) := by
      unfold add_reaction
      rw [hn]
      dsimp only
      rw [hgur]
    rw [heq1]
    have hn1 : getById { s with reactions := s.reactions ++ [mkReaction n u k] } n
        = some p0 := hn
    have hspec := update_count_spec
      { s with reactions := s.reactions ++ [mkReaction n u k] } p0 n hn1
    exact ⟨hspec.1, fun i => hspec.2 i⟩
  · intro hc
    cases hf : s.reactions.find? (reactionKey n u k) with
    | none => exact absurd ((find?_none_iff_countP_zero _ _).mp hf) hc
    | some ex =>
      have hgur : get_user_reaction s n u k = some ex := hf
      have heqr : remove_reaction s u n k =
          update_reaction_count
            { s with reactions := s.reactions.eraseP (reactionKey n u k) } n := by
        unfold remove_reaction
        rw [hgur]
      rw [heqr]
      have hn1 : getById { s with reactions := s.reactions.eraseP (reactionKey n u k) } n
          = some p0 := hn
      have hspec := update_count_spec
        { s with reactions := s.reactions.eraseP (reactionKey n u k) } p0 n hn1
      exact ⟨hspec.1, fun i => hspec.2 i⟩
  · intro hc
    cases hf : s.reactions.find? (reactionKey n u k) with
    | none => exact absurd ((find?_none_iff_countP_zero _ _).mp hf) hc
    | some ex =>
      have hgur : get_user_reaction s n u k = some ex := hf
      have heq1 : add_reaction s u n k = (s, some ex) := by
        unfold add_reaction
        rw [hn]
        dsimp only
        rw [hgur]
      rw [heq1]
  · intro hc
    have hgur : get_user_reaction s n u k = none := by
      show s.reactions.find? (reactionKey n u k) = none
      exact (find?_none_iff_countP_zero _ _).mpr hc
    unfold remove_reaction
    rw [hgur]

/-- Engagement score of get_trending: reaction_count + fork_count * 2. -/
def engagementScore (r : Receipt) : Nat := r.reaction_count + r.fork_count * 2

/-- Ordering of get_trending: engagement score descending, then
created_at descending as tie-break. -/
def trendingOrder (a b : Receipt) : Prop :=
  engagementScore b < engagementScore a ∨
    (engagementScore a = engagementScore b ∧ b.created_at ≤ a.created_at)

instance : DecidableRel trendingOrder := fun a b =>
  inferInstanceAs (Decidable (engagementScore b < engagementScore a ∨
    (engagementScore a = engagementScore b ∧ b.created_at ≤ a.created_at)))

instance : IsTotal Receipt trendingOrder := by
  constructor
  intro a b
  unfold trendingOrder
  rcases lt_trichotomy (engagementScore a) (engagementScore b) with h | h | h
  · exact Or.inr (Or.inl h)
  · rcases le_total b.created_at a.created_at with hc | hc
    · exact Or.inl (Or.inr ⟨h, hc⟩)
    · exact Or.inr (Or.inr ⟨h.symm, hc⟩)
  · exact Or.inl (Or.inl h)

instance : IsTrans Receipt trendingOrder := by
  constructor
  intro a b c hab hbc
  unfold trendingOrder at hab hbc ⊢
  rcases hab with h1 | ⟨h1, h1c⟩ <;> rcases hbc with h2 | ⟨h2, h2c⟩
  · exact Or.inl (by omega)
  · exact Or.inl (by omega)
  · exact Or.inl (by omega)
  · exact Or.inr ⟨by omega, le_trans h2c h1c⟩

/-- ReceiptRepository.get_trending: public receipts created within the
trailing window (cutoff is now minus the window in hours; timestamps are
in seconds), ordered by engagement score descending then created_at
descending, truncated to limit.  The source applies no root filter. -/
def get_trending (s : Store) (now : Int) (lim : Nat) (hours : Int) :
    List Receipt :=
  ((s.receipts.filter (fun r =>
      r.visibility == Visibility.pub
        && decide (now - hours * 3600 ≤ r.created_at))).insertionSort
    trendingOrder).take lim

/-- A store whose only receipt is a public fork (parent id 1) created
inside the trending window. -/
def forkOnlyStore : Store :=
  { receipts :=
      [ { id := 2, author_id := 10, parent_receipt_id := some 1,
          visibility := Visibility.pub, fork_count := 0, reaction_count := 0,
          created_at := 50 } ],
    reactions := [], evidence := [] }

/-- C8 counterexample: get_trending returns a node whose
parent_receipt_id is not null — a fork, not a root-eligible node — since
the query filters only on visibility and window, never on the parent
link. -/
theorem get_trending_returns_non_root :
    (get_trending forkOnlyStore 100 10 24).map Receipt.parent_receipt_id
      = [some 1] := by
  decide

/-- C8 amended: every node returned by get_trending is public and created
within the trailing window, the result is ordered by engagement score
(reaction_count + 2 * fork_count) descending with created_at descending
as tie-break, and it contains at most limit nodes; returned nodes may be
forks as well as roots, since the source has no root filter. -/
theorem get_trending_filter_order_limit (s : Store) (now : Int) (lim : Nat)
    (hours : Int) :
    (∀ r ∈ get_trending s now lim hours,
        r.visibility = Visibility.pub ∧ now - hours * 3600 ≤ r.created_at) ∧
    (get_trending s now lim hours).length ≤ lim ∧
    List.Sorted trendingOrder (get_trending s now lim hours) := by
  refine ⟨?_, ?_, ?_⟩
  · intro r hr
    have hr2 := List.take_subset _ _ hr
    rw [List.mem_insertionSort] at hr2
    have hp := List.of_mem_filter hr2
    simpa using hp
  · exact List.length_take_le _ _
  · exact List.Pairwise.sublist (List.take_sublist _ _)
      (List.sorted_insertionSort trendingOrder _)

/-- Feed ordering of get_feed and get_by_author: created_at descending,
the single ORDER BY key of both queries; the source has no id tie-break,
so under the stable sort model ties keep table order. -/
def feedOrder (a b : Receipt) : Prop := b.created_at ≤ a.created_at

instance : DecidableRel feedOrder := fun a b =>
  inferInstanceAs (Decidable (b.created_at ≤ a.created_at))

instance : IsTotal Receipt feedOrder :=
  ⟨fun a b => le_total b.created_at a.created_at⟩

instance : IsTrans Receipt feedOrder :=
  ⟨fun _ _ _ h1 h2 => le_trans h2 h1⟩

/-- ReceiptRepository.get_feed: public receipts, minus the excluded
authors (an empty exclusion list excludes nothing, exactly as the source
skips the clause), ordered by created_at descending, then offset and
limit. -/
def get_feed (s : Store) (skp lim : Nat) (excludeUserIds : List Nat) :
    List Receipt :=
  ((((s.receipts.filter (fun r =>
      r.visibility == Visibility.pub
        && !(excludeUserIds.contains r.author_id))).insertionSort
    feedOrder).drop skp).take lim)

/-- ReceiptRepository.get_by_author: public receipts of the author,
ordered by created_at descending, then offset and limit. -/
def get_by_author (s : Store) (authorId skp lim : Nat) : List Receipt :=
  ((((s.receipts.filter (fun r =>
      r.author_id == authorId
        && r.visibility == Visibility.pub)).insertionSort
    feedOrder).drop skp).take lim)

/-- Three public receipts with the same created_at, stored in table order
with ids 2, 1, 3. -/
def tieStore : Store :=
  { receipts :=
      [ { id := 2, author_id := 10, parent_receipt_id := none,
          visibility := Visibility.pub, fork_count := 0, reaction_count := 0,
          created_at := 10 },
        { id := 1, author_id := 10, parent_receipt_id := none,
          visibility := Visibility.pub, fork_count := 0, reaction_count := 0,
          created_at := 10 },
        { id := 3, author_id := 10, parent_receipt_id := none,
          visibility := Visibility.pub, fork_count := 0, reaction_count := 0,
          created_at := 10 } ],
    reactions := [], evidence := [] }

/-- C9 counterexample: on three receipts with equal created_at, get_feed
returns ids in table order 2, 1, 3 — ordered neither ascending nor
descending by id — because the query orders by created_at alone and
breaks no ties by id, so its sort keys do not determine a total order
over the qualifying nodes. -/
theorem get_feed_ties_not_broken_by_id :
    (get_feed tieStore 0 10 []).map Receipt.id = [2, 1, 3] ∧
    ¬ List.Sorted (fun a b : Nat => a < b)
        ((get_feed tieStore 0 10 []).map Receipt.id) ∧
    ¬ List.Sorted (fun a b : Nat => b < a)
        ((get_feed tieStore 0 10 []).map Receipt.id) := by
  decide

/-- C9 amended: the list operations of the node store return results
ordered by creation time descending, with no further tie-break: equal
timestamps stay in underlying table order, so the ordering keys alone do
not totally order the qualifying nodes. -/
theorem list_ops_sorted_by_created_at (s : Store) (skp lim authorId : Nat)
    (excl : List Nat) :
    List.Sorted feedOrder (get_feed s skp lim excl) ∧
    List.Sorted feedOrder (get_by_author s authorId skp lim) := by
  constructor
  · exact List.Pairwise.sublist
      ((List.take_sublist _ _).trans (List.drop_sublist _ _))
      (List.sorted_insertionSort feedOrder _)
  · exact List.Pairwise.sublist
      ((List.take_sublist _ _).trans (List.drop_sublist _ _))
      (List.sorted_insertionSort feedOrder _)

/-- Root of the concrete three-receipt chain used by witnesses. -/
def chainRoot : Receipt :=
  { id := 1, author_id := 10, parent_receipt_id := none,
    visibility := Visibility.pub, fork_count := 1, reaction_count := 0,
    created_at := 0 }

/-- Middle receipt of the concrete chain: a fork of the root. -/
def chainMid : Receipt :=
  { id := 2, author_id := 11, parent_receipt_id := some 1,
    visibility := Visibility.pub, fork_count := 1, reaction_count := 0,
    created_at := 1 }

/-- Leaf of the concrete chain: a fork of a fork (grandchild). -/
def chainLeaf : Receipt :=
  { id := 3, author_id := 12, parent_receipt_id := some 2,
    visibility := Visibility.pub, fork_count := 0, reaction_count := 0,
    created_at := 2 }

/-- Store holding the concrete three-receipt chain 3 → 2 → 1. -/
def chainStore : Store :=
  { receipts := [chainRoot, chainMid, chainLeaf], reactions := [], evidence := [] }

/-- Witness for C5 at the concrete chain: all three queries return the
parentless top receipt as root. -/
theorem get_chain_root_of_grandchild_witness :
    (get_chain chainStore 3 chainLeaf.id 3).1 = ChainRootResult.root chainRoot ∧
    (get_chain chainStore 3 chainMid.id 3).1 = ChainRootResult.root chainRoot ∧
    (get_chain chainStore 3 chainRoot.id 3).1 = ChainRootResult.root chainRoot :=
  get_chain_root_of_grandchild chainStore chainLeaf chainMid chainRoot 0 3
    (by decide) (by decide) (by decide) (by decide) (by decide) (by decide)

/-- Store holding a single parentless receipt, used by witnesses. -/
def rootOnlyStore : Store :=
  { receipts :=
      [ { id := 1, author_id := 10, parent_receipt_id := none,
          visibility := Visibility.pub, fork_count := 0, reaction_count := 0,
          created_at := 0 } ],
    reactions := [], evidence := [] }

/-- Witness for C3: forking the single root with fresh id 2 links the
fork to it, bumps its fork_count from 0 to 1 and touches nothing else. -/
theorem fork_receipt_linkage_witness :
    (∃ f, (fork_receipt rootOnlyStore 11 1 2 1 5).2 = some f ∧
        f.parent_receipt_id = some 1) ∧
    (getById (fork_receipt rootOnlyStore 11 1 2 1 5).1 1).map
        Receipt.fork_count = some 1 ∧
    (∀ i, i ≠ 1 → i ≠ 2 →
        getById (fork_receipt rootOnlyStore 11 1 2 1 5).1 i
          = getById rootOnlyStore i) :=
  fork_receipt_linkage rootOnlyStore
    ⟨1, 10, none, Visibility.pub, 0, 0, 0⟩ 11 1 2 1 5 (by decide) (by decide)

/-- Witness for C7: forking the absent parent id 9 returns the store
untouched and no receipt. -/
theorem fork_receipt_parent_not_found_witness :
    fork_receipt rootOnlyStore 11 9 2 1 5 = (rootOnlyStore, none) :=
  fork_receipt_parent_not_found rootOnlyStore 11 9 2 1 5 (by decide)

/-- Witness for C4: adding the same support reaction twice to the single
root leaves one row and the second call returns it. -/
theorem add_reaction_idempotent_witness :
    countTriple (add_reaction rootOnlyStore 7 1 ReactionType.support).1
        1 7 ReactionType.support = 1 ∧
    (add_reaction (add_reaction rootOnlyStore 7 1 ReactionType.support).1
        7 1 ReactionType.support).1
      = (add_reaction rootOnlyStore 7 1 ReactionType.support).1 ∧
    (add_reaction (add_reaction rootOnlyStore 7 1 ReactionType.support).1
        7 1 ReactionType.support).2.isSome = true :=
  add_reaction_idempotent rootOnlyStore
    ⟨1, 10, none, Visibility.pub, 0, 0, 0⟩ 7 1 ReactionType.support
    (by decide) (by decide)

/-- Witness for C10 amended at the drifted store with the dispute kind:
no dispute row exists, so the insert branch is the live one. -/
theorem reaction_ops_recompute_counter_witness :
    (countTriple driftStore 1 7 ReactionType.dispute = 0 →
      ((getById (add_reaction driftStore 7 1 ReactionType.dispute).1 1).map
          Receipt.reaction_count
          = some (reactionRowCount
              (add_reaction driftStore 7 1 ReactionType.dispute).1 1) ∧
       ∀ i, (getById (add_reaction driftStore 7 1 ReactionType.dispute).1 i).map
          Receipt.fork_count
          = (getById driftStore i).map Receipt.fork_count)) ∧
    (countTriple driftStore 1 7 ReactionType.dispute ≠ 0 →
      ((getById (remove_reaction driftStore 7 1 ReactionType.dispute) 1).map
          Receipt.reaction_count
          = some (reactionRowCount
              (remove_reaction driftStore 7 1 ReactionType.dispute) 1) ∧
       ∀ i, (getById (remove_reaction driftStore 7 1 ReactionType.dispute) i).map
          Receipt.fork_count
          = (getById driftStore i).map Receipt.fork_count)) ∧
    (countTriple driftStore 1 7 ReactionType.dispute ≠ 0 →
      (add_reaction driftStore 7 1 ReactionType.dispute).1 = driftStore) ∧
    (countTriple driftStore 1 7 ReactionType.dispute = 0 →
      remove_reaction driftStore 7 1 ReactionType.dispute = driftStore) :=
  reaction_ops_recompute_counter driftStore
    ⟨1, 10, none, Visibility.pub, 0, 5, 0⟩ 7 1 ReactionType.dispute (by decide)

end ReceiptsApp
